import Mathlib

/-!
# Verification of the TexasHoldemGym table state machine

A shallow embedding of `texasholdem.py` (classes `Player` and
`TexasHoldemEnv`).  Pure data is mirrored by Lean structures; the Python
methods become functions on those structures.  Python exceptions
(`IndexError` from out-of-range list access, `ValueError` from
`random.sample` / the action check, `ZeroDivisionError` from `% 0`)
are modelled with `Except PyErr`.

The external deck collaborator (`deckcard.Deck`) is not part of the
repository; following the documented interface it is modelled as a list
of cards where `draw_random n` removes the first `n` cards of the
remaining deck ("draw `n` without replacement", one fixed draw order)
and `reset` restores a full 52-card deck.  Chip amounts are Python
floats, but every amount the code manipulates in the scenarios of the
specification is an integral chip count, and float addition and
comparison on such values are exact, so chip amounts are modelled as
integers.
-/

set_option autoImplicit false

abbrev Card : Type := Nat

/-- Python exceptions that the embedded code can raise. -/
inductive PyErr : Type where
  | indexError : PyErr
  | valueError : PyErr
  | zeroDivisionError : PyErr
deriving DecidableEq

/-- One seat of the table, mirroring class `Player` in `texasholdem.py`. -/
structure Player where
  id : Nat
  stack : Int
  cards : List Card
  is_active : Bool
  is_all_in : Bool
  is_dealer : Bool
  is_small_blind : Bool
  is_big_blind : Bool
deriving DecidableEq

/-- `Player.__init__(id_in, stack)`. -/
def Player.init (id_in : Nat) (stack : Int) : Player :=
  { id := id_in, stack := stack, cards := [], is_active := true,
    is_all_in := false, is_dealer := false, is_small_blind := false,
    is_big_blind := false }

/-- `Player.reset`: clears cards, deactivates the seat and clears all
role flags; the stack is untouched. -/
def Player.reset (p : Player) : Player :=
  { p with cards := [], is_active := false, is_all_in := false,
           is_dealer := false, is_small_blind := false, is_big_blind := false }

/-- The community-card dictionary `{Phase.FLOP: .., Phase.TURN: .., Phase.RIVER: ..}`. -/
structure Table where
  flop : Option (List Card)
  turn : Option Card
  river : Option Card
deriving DecidableEq

def Table.empty : Table := { flop := none, turn := none, river := none }

/-- The values ever stored in `self.game_state`: `StateMachine.START_GAME`
(set in `__init__`) and the `Phase` enum members used by `reset`/`step`.
`step` compares `game_state` with `Phase` members only, so at
`START_GAME` every comparison is false, exactly as in Python where the
two enums never compare equal. -/
inductive GameState : Type where
  | START_GAME : GameState
  | PREFLOP : GameState
  | FLOP : GameState
  | TURN : GameState
  | RIVER : GameState
  | SHOWDOWN : GameState
deriving DecidableEq

/-- The mutable state of class `TexasHoldemEnv`. -/
structure TexasHoldemEnv where
  players : List Player
  small_blind : Int
  big_blind : Int
  active_players : List Nat
  table : Table
  game_state : GameState
  stake : Option Int
  dealer_id : Nat
  players_active : List Nat
  deck : List Card
deriving DecidableEq

/-- Equality of embedded results (either a value or a raised exception)
is decidable, so concrete runs can be checked by evaluation. -/
instance {ε α : Type} [DecidableEq ε] [DecidableEq α] : DecidableEq (Except ε α) :=
  fun x y =>
    match x, y with
    | Except.error a, Except.error b =>
      if h : a = b then isTrue (by rw [h]) else isFalse (fun hc => h (Except.error.inj hc))
    | Except.ok a, Except.ok b =>
      if h : a = b then isTrue (by rw [h]) else isFalse (fun hc => h (Except.ok.inj hc))
    | Except.error _, Except.ok _ => isFalse (fun hc => Except.noConfusion hc)
    | Except.ok _, Except.error _ => isFalse (fun hc => Except.noConfusion hc)

/-- Python list indexing `xs[i]` (for the non-negative indices used by
the source): `IndexError` when out of range. -/
def pyGet (ps : List Player) (i : Nat) : Except PyErr Player :=
  match ps.get? i with
  | none => Except.error PyErr.indexError
  | some p => Except.ok p

/-- `xs[i] = f xs[i]` on a Python list: in-place update of one element. -/
def modifyIdx (f : Player → Player) : Nat → List Player → List Player
  | _, [] => []
  | 0, p :: ps => f p :: ps
  | n + 1, p :: ps => p :: modifyIdx f n ps

/-- Deck collaborator: the full, freshly shuffled 52-card deck produced
by `Deck()` / `deck.reset()` (one fixed shuffle order). -/
def freshDeck : List Card := List.range 52

/-- Deck collaborator: `deck.draw_random(n)` removes `n` cards without
replacement; `random.sample` raises `ValueError` when fewer remain. -/
def drawRandom (d : List Card) (n : Nat) : Except PyErr (List Card × List Card) :=
  if n ≤ d.length then Except.ok (d.take n, d.drop n)
  else Except.error PyErr.valueError

/-- Deck collaborator: `deck.draw_random()` drawing a single card. -/
def drawOne (d : List Card) : Except PyErr (Card × List Card) :=
  match d with
  | [] => Except.error PyErr.valueError
  | c :: rest => Except.ok (c, rest)

/-- `_get_active_players`: indices of the players whose `is_active` is set. -/
def activeIds (ps : List Player) : List Nat :=
  (ps.enum.filter (fun x => x.2.is_active)).map (fun x => x.1)

/-- Reading `self.stake` for `self.stake += ...` (it is `0`, hence
`some`, at every point the source does this). -/
def stakeVal : Option Int → Int
  | none => 0
  | some s => s

namespace TexasHoldemEnv

/-- The `while not self.players[next_player].is_dealer and idx_loop < max_loop`
loop of `__get_next_active_player_id`, with `r = max_loop - idx_loop`
remaining allowed iterations.  The Python condition evaluates
`self.players[next_player]` first, so the element access (and a possible
`IndexError`) happens before the bound is consulted, and `next_player`
is incremented without any wrap-around. -/
def scanLoop (ps : List Player) (next_player : Nat) (r : Nat) : Except PyErr Nat :=
  match ps.get? next_player with
  | none => Except.error PyErr.indexError
  | some p =>
    if p.is_dealer then Except.ok next_player
    else
      match r with
      | 0 => Except.ok next_player
      | r' + 1 => scanLoop ps (next_player + 1) r'
termination_by structural r

/-- `__get_next_active_player_id(current_player)`: starts at
`(current_player + 1) % len(self.active_players)` and runs `scanLoop`
with `max_loop = len(self.players)` iterations allowed. -/
def get_next_active_player_id (e : TexasHoldemEnv) (current_player : Nat) :
    Except PyErr Nat :=
  if e.active_players.length = 0 then Except.error PyErr.zeroDivisionError
  else scanLoop e.players ((current_player + 1) % e.active_players.length)
         e.players.length

/-- Field update performed by `_set_small_blind`. -/
def sbMark (p : Player) : Player := { p with is_small_blind := true }

/-- Field update performed by `_set_big_blind`. -/
def bbMark (p : Player) : Player := { p with is_big_blind := true }

/-- Field updates of the forced all-in branch of blind posting. -/
def allInZero (p : Player) : Player := { p with is_all_in := true, stack := 0 }

/-- Field update of the `player.cards = []` loop in `reset`. -/
def clearCards (p : Player) : Player := { p with cards := [] }

/-- Field update of the final `player.is_active = True` loop in `reset`. -/
def activeTrue (p : Player) : Player := { p with is_active := true }

/-- `_set_small_blind`. -/
def set_small_blind (e : TexasHoldemEnv) : Except PyErr TexasHoldemEnv :=
  match e.get_next_active_player_id (e.dealer_id + 1) with
  | Except.error er => Except.error er
  | Except.ok n =>
    Except.ok { e with players := modifyIdx sbMark n e.players }

/-- `_set_big_blind`. -/
def set_big_blind (e : TexasHoldemEnv) : Except PyErr TexasHoldemEnv :=
  match e.get_next_active_player_id (e.dealer_id + 1) with
  | Except.error er => Except.error er
  | Except.ok n =>
    Except.ok { e with players := modifyIdx bbMark n e.players }

/-- The `for player in self.players: player.cards = self.deck.draw_random(2)`
loop of `_deal_new_cards`: two cards per seat, in seat order, drawn from
the current deck. -/
def dealHole : List Player → List Card → Except PyErr (List Player × List Card)
  | [], d => Except.ok ([], d)
  | p :: ps, d =>
    match drawRandom d 2 with
    | Except.error er => Except.error er
    | Except.ok (cs, d2) =>
      match dealHole ps d2 with
      | Except.error er => Except.error er
      | Except.ok (ps2, d3) => Except.ok ({ p with cards := cs } :: ps2, d3)

/-- `_deal_new_cards`: assigns the blinds, then deals two hole cards to
every seat. -/
def deal_new_cards (e : TexasHoldemEnv) : Except PyErr TexasHoldemEnv :=
  match e.set_small_blind with
  | Except.error er => Except.error er
  | Except.ok ea =>
    match ea.set_big_blind with
    | Except.error er => Except.error er
    | Except.ok eb =>
      match dealHole eb.players eb.deck with
      | Except.error er => Except.error er
      | Except.ok (ps, d) => Except.ok { eb with players := ps, deck := d }

/-- First phase of `reset`: clear the community cards, set the phase to
`PREFLOP`, recompute `players_active`, clear every seat's cards, and
advance the dealer index by one modulo the seat count. -/
def afterRotate (e : TexasHoldemEnv) : TexasHoldemEnv :=
  { e with table := Table.empty, game_state := GameState.PREFLOP,
           players_active := activeIds e.players,
           players := e.players.map clearCards,
           dealer_id := (e.dealer_id + 1) % e.players.length }

/-- The small-blind posting block of `reset`, acting on the seat at
index `dealer_id + 1` (no wrap-around), with `p1` the player read there. -/
def postSmall (e : TexasHoldemEnv) (p1 : Player) : TexasHoldemEnv :=
  if p1.stack < e.small_blind then
    { e with stake := some (stakeVal e.stake + p1.stack),
             players := modifyIdx allInZero (e.dealer_id + 1) e.players }
  else
    { e with stake := some (stakeVal e.stake + e.small_blind) }

/-- The big-blind posting block of `reset`, acting on the seat at index
`dealer_id + 2` (no wrap-around), with `p2` the player read there. -/
def postBig (e : TexasHoldemEnv) (p2 : Player) : TexasHoldemEnv :=
  if p2.stack < e.big_blind then
    { e with stake := some (stakeVal e.stake + p2.stack),
             players := modifyIdx allInZero (e.dealer_id + 2) e.players }
  else
    { e with stake := some (stakeVal e.stake + e.big_blind) }

/-- The final `for player in self.players: player.is_active = True` loop. -/
def activateAll (e : TexasHoldemEnv) : TexasHoldemEnv :=
  { e with players := e.players.map activeTrue }

/-- The `self.deck.reset()` / `self.stake = 0` pair of statements in the
middle of `reset`. -/
def deckReset (e : TexasHoldemEnv) : TexasHoldemEnv :=
  { e with deck := freshDeck, stake := some 0 }

/-- `reset`: clear table and phase, recompute `players_active`, clear
cards, rotate the dealer index, `_deal_new_cards` (blind flags plus hole
cards from the deck *left over from the previous hand*), only then
`deck.reset()`, set `stake = 0`, post the blinds from the seats at
`dealer_id + 1` and `dealer_id + 2`, mark every seat active, and return
the (cleared) community-card table. -/
def reset (e : TexasHoldemEnv) : Except PyErr (TexasHoldemEnv × Table) :=
  if e.players.length = 0 then Except.error PyErr.zeroDivisionError
  else
    match (afterRotate e).deal_new_cards with
    | Except.error er => Except.error er
    | Except.ok e4 =>
      match pyGet (deckReset e4).players ((deckReset e4).dealer_id + 1) with
      | Except.error er => Except.error er
      | Except.ok p1 =>
        match pyGet ((deckReset e4).postSmall p1).players
            (((deckReset e4).postSmall p1).dealer_id + 2) with
        | Except.error er => Except.error er
        | Except.ok p2 =>
          Except.ok ((((deckReset e4).postSmall p1).postBig p2).activateAll,
                     (((deckReset e4).postSmall p1).postBig p2).activateAll.table)

/-- `_check_action`: membership test in `spaces.Discrete(3)`,
i.e. the integers 0, 1, 2 (`Action.FOLD/CALL/RAISE`);
raises `ValueError("Action not available")` otherwise.
`step` never calls this helper. -/
def check_action (action : Int) : Except PyErr Unit :=
  if 0 ≤ action ∧ action < 3 then Except.ok ()
  else Except.error PyErr.valueError

/-- `step(action)`: deals community cards according to the current
phase and returns `(self.__table, 0, False, {})`.  The `action`
argument is never read. -/
def step (e : TexasHoldemEnv) (action : Int) :
    Except PyErr (TexasHoldemEnv × Table × Int × Bool) :=
  match e.game_state with
  | GameState.PREFLOP =>
    match drawRandom e.deck 3 with
    | Except.error er => Except.error er
    | Except.ok (cs, d2) =>
      let e2 := { e with table := { e.table with flop := some cs },
                         deck := d2, game_state := GameState.FLOP }
      Except.ok (e2, e2.table, 0, false)
  | GameState.FLOP =>
    match drawOne e.deck with
    | Except.error er => Except.error er
    | Except.ok (c, d2) =>
      let e2 := { e with table := { e.table with turn := some c },
                         deck := d2, game_state := GameState.TURN }
      Except.ok (e2, e2.table, 0, false)
  | GameState.TURN =>
    match drawOne e.deck with
    | Except.error er => Except.error er
    | Except.ok (c, d2) =>
      let e2 := { e with table := { e.table with river := some c },
                         deck := d2, game_state := GameState.SHOWDOWN }
      Except.ok (e2, e2.table, 0, false)
  | _ => Except.ok (e, e.table, 0, false)

/-- `__init__(number_of_players, initial_stack, small_blind, ...)`.
The result of `random.choice(self.active_players)` is passed in as the
`dealer` argument; everything else is deterministic.  The constructor
ends by calling `reset`, whose result (new state plus returned table)
is the value of `init`. -/
def init (number_of_players : Nat) (initial_stack small_blind : Int)
    (dealer : Nat) : Except PyErr (TexasHoldemEnv × Table) :=
  let ps := (List.range number_of_players).map (fun i => Player.init i initial_stack)
  let e0 : TexasHoldemEnv :=
    { players := ps, small_blind := small_blind, big_blind := small_blind * 2,
      active_players := activeIds ps, table := Table.empty,
      game_state := GameState.START_GAME, stake := none,
      dealer_id := dealer, players_active := [], deck := freshDeck }
  match pyGet e0.players dealer with
  | Except.error er => Except.error er
  | Except.ok _ =>
    let e1 := { e0 with players := modifyIdx (fun p => { p with is_dealer := true }) dealer e0.players }
    let e2 := { e1 with players_active := activeIds e1.players }
    match e2.set_small_blind with
    | Except.error er => Except.error er
    | Except.ok e3 => e3.reset

/-- A run of `n` consecutive `reset` calls; stops at the first raised
exception. -/
def resetRun (e : TexasHoldemEnv) : Nat → Except PyErr TexasHoldemEnv
  | 0 => Except.ok e
  | n + 1 =>
    match e.reset with
    | Except.error er => Except.error er
    | Except.ok (e', _) => resetRun e' n

end TexasHoldemEnv

/-! ## Concrete table states used as witnesses and counterexamples -/

/-- A reachable 5-seat table between hands: all seats active, the
previous hand's dealer button (and flag) on seat 4, seat 2 down to a
5-chip stack.  `reset` on this state succeeds: the dealer index rotates
to 0 and the blinds are taken from seats 1 and 2. -/
def wEnv : TexasHoldemEnv :=
  { players := [Player.init 0 1000, Player.init 1 1000, Player.init 2 5,
                Player.init 3 1000, { Player.init 4 1000 with is_dealer := true }],
    small_blind := 10, big_blind := 20,
    active_players := [0, 1, 2, 3, 4], table := Table.empty,
    game_state := GameState.SHOWDOWN, stake := none, dealer_id := 4,
    players_active := [0, 1, 2, 3, 4], deck := freshDeck }

/-- Like `wEnv` but with the short (5-chip) stack on seat 4, the seat
that receives the small-blind and big-blind flags during `reset`. -/
def cEnv : TexasHoldemEnv :=
  { players := [Player.init 0 1000, Player.init 1 1000, Player.init 2 1000,
                Player.init 3 1000, { Player.init 4 5 with is_dealer := true }],
    small_blind := 10, big_blind := 20,
    active_players := [0, 1, 2, 3, 4], table := Table.empty,
    game_state := GameState.SHOWDOWN, stake := none, dealer_id := 4,
    players_active := [0, 1, 2, 3, 4], deck := freshDeck }

/-- A 5-seat table whose dealer index is 3, so the next `reset` rotates
the dealer to seat 4 and blind posting reads `players[5]`. -/
def c4Env : TexasHoldemEnv :=
  { players := [Player.init 0 1000, Player.init 1 1000, Player.init 2 1000,
                Player.init 3 1000, { Player.init 4 1000 with is_dealer := true }],
    small_blind := 10, big_blind := 20,
    active_players := [0, 1, 2, 3, 4], table := Table.empty,
    game_state := GameState.SHOWDOWN, stake := none, dealer_id := 3,
    players_active := [0, 1, 2, 3, 4], deck := freshDeck }

/-- Five active seats with the dealer flag on seat 0. -/
def scanEnvA : TexasHoldemEnv :=
  { players := [{ Player.init 0 1000 with is_dealer := true }, Player.init 1 1000,
                Player.init 2 1000, Player.init 3 1000, Player.init 4 1000],
    small_blind := 10, big_blind := 20,
    active_players := [0, 1, 2, 3, 4], table := Table.empty,
    game_state := GameState.SHOWDOWN, stake := none, dealer_id := 0,
    players_active := [0, 1, 2, 3, 4], deck := freshDeck }

/-- Five active seats with the dealer flag on seat 3. -/
def scanEnvB : TexasHoldemEnv :=
  { players := [Player.init 0 1000, Player.init 1 1000, Player.init 2 1000,
                { Player.init 3 1000 with is_dealer := true }, Player.init 4 1000],
    small_blind := 10, big_blind := 20,
    active_players := [0, 1, 2, 3, 4], table := Table.empty,
    game_state := GameState.SHOWDOWN, stake := none, dealer_id := 3,
    players_active := [0, 1, 2, 3, 4], deck := freshDeck }

/-- The state after the first `step` on a freshly reset table: the flop
slot holds the first three cards of the fresh deck. -/
def stepOne (e : TexasHoldemEnv) : TexasHoldemEnv :=
  { e with table := { flop := some [0, 1, 2], turn := none, river := none },
           deck := freshDeck.drop 3, game_state := GameState.FLOP }

/-- The state after the second `step`: the turn slot gains one card. -/
def stepTwo (e : TexasHoldemEnv) : TexasHoldemEnv :=
  { e with table := { flop := some [0, 1, 2], turn := some 3, river := none },
           deck := freshDeck.drop 4, game_state := GameState.TURN }

/-- The state after the third `step`: the river slot gains one card and
the phase jumps directly to `SHOWDOWN`. -/
def stepThree (e : TexasHoldemEnv) : TexasHoldemEnv :=
  { e with table := { flop := some [0, 1, 2], turn := some 3, river := some 4 },
           deck := freshDeck.drop 5, game_state := GameState.SHOWDOWN }

/-! ## Basic lemmas about the list operations -/

theorem modifyIdx_length (f : Player → Player) (n : Nat) (ps : List Player) :
    (modifyIdx f n ps).length = ps.length := by
  induction ps generalizing n with
  | nil => cases n <;> rfl
  | cons p ps ih =>
    cases n with
    | zero => rfl
    | succ n => simpa [modifyIdx] using ih n

theorem modifyIdx_get?_ne (f : Player → Player) {n m : Nat} (h : n ≠ m)
    (ps : List Player) : (modifyIdx f n ps).get? m = ps.get? m := by
  induction ps generalizing n m with
  | nil => cases n <;> rfl
  | cons p ps ih =>
    cases n with
    | zero =>
      cases m with
      | zero => exact absurd rfl h
      | succ m => rfl
    | succ n =>
      cases m with
      | zero => rfl
      | succ m => simpa [modifyIdx] using ih (fun hc => h (by omega))

theorem modifyIdx_get?_eq (f : Player → Player) (n : Nat) (ps : List Player) :
    (modifyIdx f n ps).get? n = (ps.get? n).map f := by
  induction ps generalizing n with
  | nil => cases n <;> rfl
  | cons p ps ih =>
    cases n with
    | zero => rfl
    | succ n => simpa [modifyIdx] using ih n

theorem modifyIdx_map {α : Type} (f : Player → α) (g : Player → Player)
    (hf : ∀ p, f (g p) = f p) (n : Nat) (ps : List Player) :
    (modifyIdx g n ps).map f = ps.map f := by
  induction ps generalizing n with
  | nil => cases n <;> rfl
  | cons p ps ih =>
    cases n with
    | zero => simp [modifyIdx, hf]
    | succ n => simpa [modifyIdx] using ih n

theorem get?_some_lt {ps : List Player} {i : Nat} {p : Player}
    (h : ps.get? i = some p) : i < ps.length := by
  by_contra hc
  rw [List.get?_eq_none.mpr (by omega)] at h
  exact Option.noConfusion h

theorem get?_isSome_of_lt {ps : List Player} {i : Nat} (h : i < ps.length) :
    ∃ p, ps.get? i = some p := by
  cases hq : ps.get? i with
  | none => exact absurd (List.get?_eq_none.mp hq) (by omega)
  | some p => exact ⟨p, rfl⟩

theorem map_field_get? {α : Type} (f : Player → α) {l l' : List Player}
    (h : l'.map f = l.map f) (i : Nat) :
    (l'.get? i).map f = (l.get? i).map f := by
  rw [← List.get?_map, ← List.get?_map, h]

/-! ## Lemmas about the role-rotation scan -/

namespace TexasHoldemEnv

theorem scanLoop_ok_lt {ps : List Player} {np r j : Nat}
    (h : scanLoop ps np r = Except.ok j) : j < ps.length := by
  induction r generalizing np with
  | zero =>
    rw [scanLoop] at h
    cases hq : ps.get? np with
    | none => rw [hq] at h; exact Except.noConfusion h
    | some p =>
      rw [hq] at h
      by_cases hd : p.is_dealer <;> simp [hd] at h <;>
        exact h ▸ get?_some_lt hq
  | succ r ih =>
    rw [scanLoop] at h
    cases hq : ps.get? np with
    | none => rw [hq] at h; exact Except.noConfusion h
    | some p =>
      rw [hq] at h
      by_cases hd : p.is_dealer
      · simp [hd] at h; exact h ▸ get?_some_lt hq
      · simp [hd] at h; exact ih h

theorem scanLoop_error {ps : List Player} {np r : Nat} {er : PyErr}
    (h : scanLoop ps np r = Except.error er) : er = PyErr.indexError := by
  induction r generalizing np with
  | zero =>
    rw [scanLoop] at h
    cases hq : ps.get? np with
    | none => rw [hq] at h; exact (Except.error.injEq _ _ ▸ h).symm
    | some p =>
      rw [hq] at h
      by_cases hd : p.is_dealer <;> simp [hd] at h
  | succ r ih =>
    rw [scanLoop] at h
    cases hq : ps.get? np with
    | none => rw [hq] at h; exact (Except.error.injEq _ _ ▸ h).symm
    | some p =>
      rw [hq] at h
      by_cases hd : p.is_dealer
      · simp [hd] at h
      · simp [hd] at h; exact ih h

theorem get_next_ok_lt {e : TexasHoldemEnv} {cur n : Nat}
    (h : e.get_next_active_player_id cur = Except.ok n) : n < e.players.length := by
  rw [get_next_active_player_id] at h
  by_cases hz : e.active_players.length = 0
  · simp [hz] at h
  · simp [hz] at h; exact scanLoop_ok_lt h

theorem get_next_error {e : TexasHoldemEnv} {cur : Nat} {er : PyErr}
    (ha : e.active_players ≠ []) (h : e.get_next_active_player_id cur = Except.error er) :
    er = PyErr.indexError := by
  rw [get_next_active_player_id] at h
  have hz : e.active_players.length ≠ 0 := fun hc => ha (List.length_eq_zero.mp hc)
  simp [hz] at h
  exact scanLoop_error h

end TexasHoldemEnv

/-! ## Lemmas about hole-card dealing -/

namespace TexasHoldemEnv


theorem drawRandom_ok {d cs d2 : List Card} {n : Nat}
    (h : drawRandom d n = Except.ok (cs, d2)) :
    n ≤ d.length ∧ cs = d.take n ∧ d2 = d.drop n := by
  rw [drawRandom] at h
  split at h
  · exact ⟨by assumption, (Prod.mk.injEq _ _ _ _ ▸ Except.ok.inj h).1.symm,
      (Prod.mk.injEq _ _ _ _ ▸ Except.ok.inj h).2.symm⟩
  · exact Except.noConfusion h

theorem drawRandom_error {d : List Card} {n : Nat} {er : PyErr}
    (h : drawRandom d n = Except.error er) : er = PyErr.valueError := by
  rw [drawRandom] at h
  split at h
  · exact Except.noConfusion h
  · exact (Except.error.inj h).symm

theorem dealHole_error {ps : List Player} {d : List Card} {er : PyErr}
    (h : dealHole ps d = Except.error er) : er = PyErr.valueError := by
  induction ps generalizing d with
  | nil => exact Except.noConfusion h
  | cons p ps ih =>
    rw [dealHole] at h
    split at h
    · rename_i e1 hdr
      cases h
      exact drawRandom_error hdr
    · rename_i cs d2 hdr
      split at h
      · rename_i e2 hrec
        cases h
        exact ih hrec
      · exact Except.noConfusion h

theorem dealHole_ok_of_le {ps : List Player} {d : List Card}
    (h : 2 * ps.length ≤ d.length) :
    ∃ ps' d', dealHole ps d = Except.ok (ps', d') := by
  induction ps generalizing d with
  | nil => exact ⟨[], d, rfl⟩
  | cons p ps ih =>
    have h2 : 2 ≤ d.length := by simp [List.length_cons] at h; omega
    have hdr : drawRandom d 2 = Except.ok (d.take 2, d.drop 2) := by
      rw [drawRandom, if_pos h2]
    have hlen : 2 * ps.length ≤ (d.drop 2).length := by
      rw [List.length_drop]; simp [List.length_cons] at h; omega
    obtain ⟨ps2, d3, hrec⟩ := ih hlen
    refine ⟨{ p with cards := d.take 2 } :: ps2, d3, ?_⟩
    rw [dealHole]
    simp [hdr, hrec]

theorem dealHole_ok_le {ps ps' : List Player} {d d' : List Card}
    (h : dealHole ps d = Except.ok (ps', d')) : 2 * ps.length ≤ d.length := by
  induction ps generalizing d ps' d' with
  | nil => simp
  | cons p ps ih =>
    rw [dealHole] at h
    split at h
    · exact Except.noConfusion h
    · rename_i cs d2 hdr
      split at h
      · exact Except.noConfusion h
      · rename_i ps2 d3 hrec
        obtain ⟨h2, _, hd2⟩ := drawRandom_ok hdr
        have := ih hrec
        rw [hd2, List.length_drop] at this
        simp [List.length_cons]
        omega

theorem dealHole_length {ps ps' : List Player} {d d' : List Card}
    (h : dealHole ps d = Except.ok (ps', d')) : ps'.length = ps.length := by
  induction ps generalizing d ps' d' with
  | nil => cases h; rfl
  | cons p ps ih =>
    rw [dealHole] at h
    split at h
    · exact Except.noConfusion h
    · rename_i cs d2 hdr
      split at h
      · exact Except.noConfusion h
      · rename_i ps2 d3 hrec
        cases h
        simpa [List.length_cons] using ih hrec

theorem dealHole_map {α : Type} (f : Player → α)
    (hf : ∀ p cs, f { p with cards := cs } = f p)
    {ps ps' : List Player} {d d' : List Card}
    (h : dealHole ps d = Except.ok (ps', d')) : ps'.map f = ps.map f := by
  induction ps generalizing d ps' d' with
  | nil => cases h; rfl
  | cons p ps ih =>
    rw [dealHole] at h
    split at h
    · exact Except.noConfusion h
    · rename_i cs d2 hdr
      split at h
      · exact Except.noConfusion h
      · rename_i ps2 d3 hrec
        cases h
        simp [List.map_cons, hf, ih hrec]

theorem dealHole_get? {ps ps' : List Player} {d d' : List Card}
    (h : dealHole ps d = Except.ok (ps', d')) :
    ∀ i p, ps.get? i = some p →
      ps'.get? i = some { p with cards := (d.drop (2 * i)).take 2 } := by
  induction ps generalizing d ps' d' with
  | nil => intro i p hp; cases i <;> exact Option.noConfusion hp
  | cons p0 ps ih =>
    intro i p hp
    rw [dealHole] at h
    split at h
    · exact Except.noConfusion h
    · rename_i cs d2 hdr
      split at h
      · exact Except.noConfusion h
      · rename_i ps2 d3 hrec
        cases h
        obtain ⟨h2, hcs, hd2⟩ := drawRandom_ok hdr
        cases i with
        | zero =>
          cases hp
          simp [hcs]
        | succ i =>
          have := ih hrec i p hp
          rw [hd2, List.drop_drop] at this
          have harith : 2 + 2 * i = 2 * (i + 1) := by omega
          rw [harith] at this
          exact this

end TexasHoldemEnv

/-! ## Field lemmas for the stages of `reset` -/

namespace TexasHoldemEnv

theorem pyGet_ok {ps : List Player} {i : Nat} {p : Player} :
    pyGet ps i = Except.ok p ↔ ps.get? i = some p := by
  rw [pyGet]
  cases h : ps.get? i <;> simp

theorem pyGet_error {ps : List Player} {i : Nat} {er : PyErr}
    (h : pyGet ps i = Except.error er) : er = PyErr.indexError := by
  rw [pyGet] at h
  cases hq : ps.get? i <;> rw [hq] at h <;> simp at h
  exact h.symm

@[simp] theorem postSmall_dealer_id (e : TexasHoldemEnv) (p : Player) :
    (e.postSmall p).dealer_id = e.dealer_id := by
  rw [postSmall]; split <;> rfl

@[simp] theorem postSmall_game_state (e : TexasHoldemEnv) (p : Player) :
    (e.postSmall p).game_state = e.game_state := by
  rw [postSmall]; split <;> rfl

@[simp] theorem postSmall_deck (e : TexasHoldemEnv) (p : Player) :
    (e.postSmall p).deck = e.deck := by
  rw [postSmall]; split <;> rfl

@[simp] theorem postSmall_table (e : TexasHoldemEnv) (p : Player) :
    (e.postSmall p).table = e.table := by
  rw [postSmall]; split <;> rfl

@[simp] theorem postSmall_small_blind (e : TexasHoldemEnv) (p : Player) :
    (e.postSmall p).small_blind = e.small_blind := by
  rw [postSmall]; split <;> rfl

@[simp] theorem postSmall_big_blind (e : TexasHoldemEnv) (p : Player) :
    (e.postSmall p).big_blind = e.big_blind := by
  rw [postSmall]; split <;> rfl

@[simp] theorem postSmall_active_players (e : TexasHoldemEnv) (p : Player) :
    (e.postSmall p).active_players = e.active_players := by
  rw [postSmall]; split <;> rfl

theorem postSmall_stake (e : TexasHoldemEnv) (p : Player) :
    (e.postSmall p).stake =
      some (stakeVal e.stake + (if p.stack < e.small_blind then p.stack else e.small_blind)) := by
  rw [postSmall]; split <;> rename_i h <;> simp [h]

@[simp] theorem postSmall_players_length (e : TexasHoldemEnv) (p : Player) :
    (e.postSmall p).players.length = e.players.length := by
  rw [postSmall]; split <;> simp [modifyIdx_length]

theorem postSmall_players_get?_self (e : TexasHoldemEnv) (p : Player) :
    (e.postSmall p).players.get? (e.dealer_id + 1) =
      if p.stack < e.small_blind
      then (e.players.get? (e.dealer_id + 1)).map allInZero
      else e.players.get? (e.dealer_id + 1) := by
  rw [postSmall]
  split <;> rename_i h
  · exact modifyIdx_get?_eq allInZero (e.dealer_id + 1) e.players
  · rfl

theorem postSmall_players_get?_ne (e : TexasHoldemEnv) (p : Player) {m : Nat}
    (hm : e.dealer_id + 1 ≠ m) :
    (e.postSmall p).players.get? m = e.players.get? m := by
  rw [postSmall]
  split
  · exact modifyIdx_get?_ne allInZero hm e.players
  · rfl

@[simp] theorem postBig_dealer_id (e : TexasHoldemEnv) (p : Player) :
    (e.postBig p).dealer_id = e.dealer_id := by
  rw [postBig]; split <;> rfl

@[simp] theorem postBig_game_state (e : TexasHoldemEnv) (p : Player) :
    (e.postBig p).game_state = e.game_state := by
  rw [postBig]; split <;> rfl

@[simp] theorem postBig_deck (e : TexasHoldemEnv) (p : Player) :
    (e.postBig p).deck = e.deck := by
  rw [postBig]; split <;> rfl

@[simp] theorem postBig_table (e : TexasHoldemEnv) (p : Player) :
    (e.postBig p).table = e.table := by
  rw [postBig]; split <;> rfl

@[simp] theorem postBig_small_blind (e : TexasHoldemEnv) (p : Player) :
    (e.postBig p).small_blind = e.small_blind := by
  rw [postBig]; split <;> rfl

@[simp] theorem postBig_big_blind (e : TexasHoldemEnv) (p : Player) :
    (e.postBig p).big_blind = e.big_blind := by
  rw [postBig]; split <;> rfl

@[simp] theorem postBig_active_players (e : TexasHoldemEnv) (p : Player) :
    (e.postBig p).active_players = e.active_players := by
  rw [postBig]; split <;> rfl

theorem postBig_stake (e : TexasHoldemEnv) (p : Player) :
    (e.postBig p).stake =
      some (stakeVal e.stake + (if p.stack < e.big_blind then p.stack else e.big_blind)) := by
  rw [postBig]; split <;> rename_i h <;> simp [h]

@[simp] theorem postBig_players_length (e : TexasHoldemEnv) (p : Player) :
    (e.postBig p).players.length = e.players.length := by
  rw [postBig]; split <;> simp [modifyIdx_length]

theorem postBig_players_get?_self (e : TexasHoldemEnv) (p : Player) :
    (e.postBig p).players.get? (e.dealer_id + 2) =
      if p.stack < e.big_blind
      then (e.players.get? (e.dealer_id + 2)).map allInZero
      else e.players.get? (e.dealer_id + 2) := by
  rw [postBig]
  split <;> rename_i h
  · exact modifyIdx_get?_eq allInZero (e.dealer_id + 2) e.players
  · rfl

theorem postBig_players_get?_ne (e : TexasHoldemEnv) (p : Player) {m : Nat}
    (hm : e.dealer_id + 2 ≠ m) :
    (e.postBig p).players.get? m = e.players.get? m := by
  rw [postBig]
  split
  · exact modifyIdx_get?_ne allInZero hm e.players
  · rfl

@[simp] theorem activateAll_players_get? (e : TexasHoldemEnv) (m : Nat) :
    e.activateAll.players.get? m = (e.players.get? m).map activeTrue := by
  rw [activateAll]; simp [List.get?_map]

@[simp] theorem activateAll_players_length (e : TexasHoldemEnv) :
    e.activateAll.players.length = e.players.length := by
  rw [activateAll]; simp

/-! ## Success and failure decompositions -/

theorem set_small_blind_ok {e e' : TexasHoldemEnv}
    (h : e.set_small_blind = Except.ok e') :
    ∃ n, n < e.players.length ∧
      e' = { e with players := modifyIdx sbMark n e.players } := by
  rw [set_small_blind] at h
  split at h
  · exact Except.noConfusion h
  · rename_i n hn
    cases h
    exact ⟨n, get_next_ok_lt hn, rfl⟩

theorem set_small_blind_error {e : TexasHoldemEnv} {er : PyErr}
    (ha : e.active_players ≠ []) (h : e.set_small_blind = Except.error er) :
    er = PyErr.indexError := by
  rw [set_small_blind] at h
  split at h
  · rename_i e1 hg
    cases h
    exact get_next_error ha hg
  · exact Except.noConfusion h

theorem set_big_blind_ok {e e' : TexasHoldemEnv}
    (h : e.set_big_blind = Except.ok e') :
    ∃ n, n < e.players.length ∧
      e' = { e with players := modifyIdx bbMark n e.players } := by
  rw [set_big_blind] at h
  split at h
  · exact Except.noConfusion h
  · rename_i n hn
    cases h
    exact ⟨n, get_next_ok_lt hn, rfl⟩

theorem set_big_blind_error {e : TexasHoldemEnv} {er : PyErr}
    (ha : e.active_players ≠ []) (h : e.set_big_blind = Except.error er) :
    er = PyErr.indexError := by
  rw [set_big_blind] at h
  split at h
  · rename_i e1 hg
    cases h
    exact get_next_error ha hg
  · exact Except.noConfusion h

theorem deal_new_cards_ok {e e' : TexasHoldemEnv}
    (h : e.deal_new_cards = Except.ok e') :
    ∃ n1 n2 ps' d',
      dealHole (modifyIdx bbMark n2 (modifyIdx sbMark n1 e.players)) e.deck =
        Except.ok (ps', d') ∧
      e' = { e with players := ps', deck := d' } := by
  rw [deal_new_cards] at h
  split at h
  · exact Except.noConfusion h
  · rename_i ea hsb
    split at h
    · exact Except.noConfusion h
    · rename_i eb hbb
      split at h
      · exact Except.noConfusion h
      · rename_i ps' d' hdeal
        cases h
        obtain ⟨n1, hn1, rfl⟩ := set_small_blind_ok hsb
        obtain ⟨n2, hn2, rfl⟩ := set_big_blind_ok hbb
        exact ⟨n1, n2, ps', d', hdeal, rfl⟩

theorem deal_new_cards_error {e : TexasHoldemEnv} {er : PyErr}
    (ha : e.active_players ≠ []) (hd : 2 * e.players.length ≤ e.deck.length)
    (h : e.deal_new_cards = Except.error er) : er = PyErr.indexError := by
  rw [deal_new_cards] at h
  split at h
  · rename_i e1 hsb
    cases h
    exact set_small_blind_error ha hsb
  · rename_i ea hsb
    obtain ⟨n1, hn1, rfl⟩ := set_small_blind_ok hsb
    split at h
    · rename_i e1 hbb
      cases h
      refine set_big_blind_error ?_ hbb
      exact ha
    · rename_i eb hbb
      obtain ⟨n2, hn2, rfl⟩ := set_big_blind_ok hbb
      split at h
      · rename_i e1 hdeal
        have hlen : 2 * (modifyIdx bbMark n2 (modifyIdx sbMark n1 e.players)).length
            ≤ e.deck.length := by
          rw [modifyIdx_length, modifyIdx_length]
          simpa [modifyIdx_length] using hd
        obtain ⟨ps', d', hok⟩ := dealHole_ok_of_le hlen
        rw [hok] at hdeal
        exact Except.noConfusion hdeal
      · exact Except.noConfusion h

theorem reset_ok_elim {e e' : TexasHoldemEnv} {t : Table}
    (h : e.reset = Except.ok (e', t)) :
    ∃ e4 p1 p2,
      e.players.length ≠ 0 ∧
      (afterRotate e).deal_new_cards = Except.ok e4 ∧
      (deckReset e4).players.get? ((deckReset e4).dealer_id + 1) = some p1 ∧
      ((deckReset e4).postSmall p1).players.get?
        (((deckReset e4).postSmall p1).dealer_id + 2) = some p2 ∧
      e' = (((deckReset e4).postSmall p1).postBig p2).activateAll ∧
      t = e'.table := by
  rw [reset] at h
  split at h
  · exact Except.noConfusion h
  · rename_i hN
    split at h
    · exact Except.noConfusion h
    · rename_i e4 hdeal
      split at h
      · exact Except.noConfusion h
      · rename_i p1 hp1
        split at h
        · exact Except.noConfusion h
        · rename_i p2 hp2
          cases h
          exact ⟨e4, p1, p2, hN, hdeal, pyGet_ok.mp hp1, pyGet_ok.mp hp2, rfl, rfl⟩

theorem reset_error_classify {e : TexasHoldemEnv} {er : PyErr}
    (hN : e.players.length ≠ 0) (ha : e.active_players ≠ [])
    (hd : 2 * e.players.length ≤ e.deck.length)
    (h : e.reset = Except.error er) : er = PyErr.indexError := by
  rw [reset] at h
  split at h
  · exact absurd (by assumption) hN
  · split at h
    · rename_i e1 hdeal
      cases h
      exact deal_new_cards_error (e := afterRotate e) ha
        (by simpa [afterRotate] using hd) hdeal
    · rename_i e4 hdeal
      split at h
      · rename_i e1 hp1
        cases h
        exact pyGet_error hp1
      · rename_i p1 hp1
        split at h
        · rename_i e1 hp2
          cases h
          exact pyGet_error hp2
        · exact Except.noConfusion h

end TexasHoldemEnv

/-! ## Projection lemmas for `afterRotate`, `deckReset` and `activateAll` -/

namespace TexasHoldemEnv

@[simp] theorem afterRotate_players (e : TexasHoldemEnv) :
    (afterRotate e).players = e.players.map clearCards := rfl
@[simp] theorem afterRotate_deck (e : TexasHoldemEnv) :
    (afterRotate e).deck = e.deck := rfl
@[simp] theorem afterRotate_dealer_id (e : TexasHoldemEnv) :
    (afterRotate e).dealer_id = (e.dealer_id + 1) % e.players.length := rfl
@[simp] theorem afterRotate_game_state (e : TexasHoldemEnv) :
    (afterRotate e).game_state = GameState.PREFLOP := rfl
@[simp] theorem afterRotate_table (e : TexasHoldemEnv) :
    (afterRotate e).table = Table.empty := rfl
@[simp] theorem afterRotate_active_players (e : TexasHoldemEnv) :
    (afterRotate e).active_players = e.active_players := rfl
@[simp] theorem afterRotate_small_blind (e : TexasHoldemEnv) :
    (afterRotate e).small_blind = e.small_blind := rfl
@[simp] theorem afterRotate_big_blind (e : TexasHoldemEnv) :
    (afterRotate e).big_blind = e.big_blind := rfl
@[simp] theorem afterRotate_players_length (e : TexasHoldemEnv) :
    (afterRotate e).players.length = e.players.length := List.length_map _ _

@[simp] theorem deckReset_players (e : TexasHoldemEnv) :
    (deckReset e).players = e.players := rfl
@[simp] theorem deckReset_dealer_id (e : TexasHoldemEnv) :
    (deckReset e).dealer_id = e.dealer_id := rfl
@[simp] theorem deckReset_stake (e : TexasHoldemEnv) :
    (deckReset e).stake = some 0 := rfl
@[simp] theorem deckReset_deck (e : TexasHoldemEnv) :
    (deckReset e).deck = freshDeck := rfl
@[simp] theorem deckReset_small_blind (e : TexasHoldemEnv) :
    (deckReset e).small_blind = e.small_blind := rfl
@[simp] theorem deckReset_big_blind (e : TexasHoldemEnv) :
    (deckReset e).big_blind = e.big_blind := rfl
@[simp] theorem deckReset_game_state (e : TexasHoldemEnv) :
    (deckReset e).game_state = e.game_state := rfl
@[simp] theorem deckReset_table (e : TexasHoldemEnv) :
    (deckReset e).table = e.table := rfl

@[simp] theorem activateAll_stake (e : TexasHoldemEnv) :
    e.activateAll.stake = e.stake := rfl
@[simp] theorem activateAll_game_state (e : TexasHoldemEnv) :
    e.activateAll.game_state = e.game_state := rfl
@[simp] theorem activateAll_deck (e : TexasHoldemEnv) :
    e.activateAll.deck = e.deck := rfl
@[simp] theorem activateAll_table (e : TexasHoldemEnv) :
    e.activateAll.table = e.table := rfl
@[simp] theorem activateAll_dealer_id (e : TexasHoldemEnv) :
    e.activateAll.dealer_id = e.dealer_id := rfl
@[simp] theorem activateAll_active_players (e : TexasHoldemEnv) :
    e.activateAll.active_players = e.active_players := rfl
@[simp] theorem activateAll_small_blind (e : TexasHoldemEnv) :
    e.activateAll.small_blind = e.small_blind := rfl
@[simp] theorem activateAll_big_blind (e : TexasHoldemEnv) :
    e.activateAll.big_blind = e.big_blind := rfl
@[simp] theorem deckReset_active_players (e : TexasHoldemEnv) :
    (deckReset e).active_players = e.active_players := rfl

/-! ## Facts about `_deal_new_cards` -/

theorem deal_new_cards_fields {e e4 : TexasHoldemEnv}
    (h : e.deal_new_cards = Except.ok e4) :
    e4.dealer_id = e.dealer_id ∧ e4.small_blind = e.small_blind ∧
    e4.big_blind = e.big_blind ∧ e4.table = e.table ∧
    e4.game_state = e.game_state ∧ e4.active_players = e.active_players ∧
    e4.stake = e.stake ∧ e4.players.length = e.players.length := by
  obtain ⟨n1, n2, ps', d', hdeal, rfl⟩ := deal_new_cards_ok h
  refine ⟨rfl, rfl, rfl, rfl, rfl, rfl, rfl, ?_⟩
  show ps'.length = e.players.length
  rw [dealHole_length hdeal, modifyIdx_length, modifyIdx_length]

theorem deal_new_cards_map {α : Type} (f : Player → α)
    (hf1 : ∀ p cs, f { p with cards := cs } = f p)
    (hf2 : ∀ p, f (sbMark p) = f p) (hf3 : ∀ p, f (bbMark p) = f p)
    {e e4 : TexasHoldemEnv} (h : e.deal_new_cards = Except.ok e4) :
    e4.players.map f = e.players.map f := by
  obtain ⟨n1, n2, ps', d', hdeal, rfl⟩ := deal_new_cards_ok h
  show ps'.map f = e.players.map f
  rw [dealHole_map f hf1 hdeal, modifyIdx_map f _ hf3, modifyIdx_map f _ hf2]

theorem deal_new_cards_cards {e e4 : TexasHoldemEnv}
    (h : e.deal_new_cards = Except.ok e4) :
    ∀ i p, e.players.get? i = some p →
      ∃ q, e4.players.get? i = some q ∧ q.cards = (e.deck.drop (2 * i)).take 2 := by
  obtain ⟨n1, n2, ps', d', hdeal, rfl⟩ := deal_new_cards_ok h
  intro i p hp
  have hlen : i < (modifyIdx bbMark n2 (modifyIdx sbMark n1 e.players)).length := by
    rw [modifyIdx_length, modifyIdx_length]
    exact get?_some_lt hp
  obtain ⟨r, hr⟩ := get?_isSome_of_lt hlen
  exact ⟨_, dealHole_get? hdeal i r hr, rfl⟩

theorem deal_new_cards_deck_le {e e4 : TexasHoldemEnv}
    (h : e.deal_new_cards = Except.ok e4) :
    2 * e.players.length ≤ e.deck.length := by
  obtain ⟨n1, n2, ps', d', hdeal, rfl⟩ := deal_new_cards_ok h
  have := dealHole_ok_le hdeal
  rwa [modifyIdx_length, modifyIdx_length] at this

/-! ## The main facts about a successful `reset` -/

theorem reset_state {e e' : TexasHoldemEnv} {t : Table}
    (h : e.reset = Except.ok (e', t)) :
    e'.game_state = GameState.PREFLOP ∧ e'.deck = freshDeck ∧
    e'.table = Table.empty ∧ t = Table.empty ∧
    e'.dealer_id = (e.dealer_id + 1) % e.players.length ∧
    e'.players.length = e.players.length ∧
    e'.active_players = e.active_players ∧
    e'.small_blind = e.small_blind ∧ e'.big_blind = e.big_blind := by
  obtain ⟨e4, p1, p2, hN, hdeal, hq1, hq2, rfl, rfl⟩ := reset_ok_elim h
  obtain ⟨hd1, hsb, hbb, htb, hgs, hap, hsk, hlen⟩ := deal_new_cards_fields hdeal
  simp only [afterRotate_dealer_id, afterRotate_small_blind, afterRotate_big_blind,
    afterRotate_game_state, afterRotate_table, afterRotate_active_players,
    afterRotate_players_length] at hd1 hsb hbb htb hgs hap hlen
  refine ⟨?_, ?_, ?_, ?_, ?_, ?_, ?_, ?_, ?_⟩
  · simp [hgs]
  · simp
  · simp [htb]
  · simp [htb]
  · simp [hd1]
  · simp [hlen]
  · simp [hap]
  · simp [hsb]
  · simp [hbb]

@[simp] theorem stakeVal_some (x : Int) : stakeVal (some x) = x := rfl

theorem reset_post {e e' : TexasHoldemEnv} {t : Table}
    (h : e.reset = Except.ok (e', t)) {p1 p2 : Player}
    (hp1 : e.players.get? ((e.dealer_id + 1) % e.players.length + 1) = some p1)
    (hp2 : e.players.get? ((e.dealer_id + 1) % e.players.length + 2) = some p2) :
    e'.stake = some ((if p1.stack < e.small_blind then p1.stack else e.small_blind) +
                     (if p2.stack < e.big_blind then p2.stack else e.big_blind)) ∧
    (∃ q1, e'.players.get? ((e.dealer_id + 1) % e.players.length + 1) = some q1 ∧
       q1.stack = (if p1.stack < e.small_blind then 0 else p1.stack) ∧
       q1.is_all_in = (if p1.stack < e.small_blind then true else p1.is_all_in)) ∧
    (∃ q2, e'.players.get? ((e.dealer_id + 1) % e.players.length + 2) = some q2 ∧
       q2.stack = (if p2.stack < e.big_blind then 0 else p2.stack) ∧
       q2.is_all_in = (if p2.stack < e.big_blind then true else p2.is_all_in)) := by
  obtain ⟨e4, pr1, pr2, hN, hdeal, hq1, hq2, rfl, rfl⟩ := reset_ok_elim h
  obtain ⟨hd1, hsb, hbb, _, _, _, _, hlen⟩ := deal_new_cards_fields hdeal
  simp only [afterRotate_dealer_id, afterRotate_small_blind, afterRotate_big_blind,
    afterRotate_players_length] at hd1 hsb hbb hlen
  have hdd : (deckReset e4).dealer_id = (e.dealer_id + 1) % e.players.length := by
    rw [deckReset_dealer_id, hd1]
  -- the seats read by the posting code are the input seats, up to card dealing
  have hms : e4.players.map Player.stack = e.players.map Player.stack := by
    have h1 := deal_new_cards_map Player.stack (fun p cs => rfl) (fun p => rfl)
      (fun p => rfl) hdeal
    rw [h1, afterRotate_players, List.map_map]
    rfl
  have hma : e4.players.map Player.is_all_in = e.players.map Player.is_all_in := by
    have h1 := deal_new_cards_map Player.is_all_in (fun p cs => rfl) (fun p => rfl)
      (fun p => rfl) hdeal
    rw [h1, afterRotate_players, List.map_map]
    rfl
  simp only [deckReset_players, hdd] at hq1
  -- hq1 : e4.players.get? (d + 1) = some pr1
  have hne12 : (deckReset e4).dealer_id + 1 ≠ (e.dealer_id + 1) % e.players.length + 2 := by
    rw [hdd]; omega
  have hq2Y : ((deckReset e4).postSmall pr1).players.get?
      ((e.dealer_id + 1) % e.players.length + 2) = some pr2 := by
    rw [← hq2]
    congr 1
    rw [postSmall_dealer_id, hdd]
  have hq2e : e4.players.get? ((e.dealer_id + 1) % e.players.length + 2) = some pr2 := by
    rw [← deckReset_players e4, ← postSmall_players_get?_ne (deckReset e4) pr1 hne12]
    exact hq2Y
  have hs1 : pr1.stack = p1.stack := by
    have h1 := map_field_get? Player.stack hms ((e.dealer_id + 1) % e.players.length + 1)
    rw [hq1, hp1] at h1
    simpa using h1
  have ha1 : pr1.is_all_in = p1.is_all_in := by
    have h1 := map_field_get? Player.is_all_in hma ((e.dealer_id + 1) % e.players.length + 1)
    rw [hq1, hp1] at h1
    simpa using h1
  have hs2 : pr2.stack = p2.stack := by
    have h1 := map_field_get? Player.stack hms ((e.dealer_id + 1) % e.players.length + 2)
    rw [hq2e, hp2] at h1
    simpa using h1
  have ha2 : pr2.is_all_in = p2.is_all_in := by
    have h1 := map_field_get? Player.is_all_in hma ((e.dealer_id + 1) % e.players.length + 2)
    rw [hq2e, hp2] at h1
    simpa using h1
  -- characterise the seat list after the small-blind block at both indices
  have hY1 : ((deckReset e4).postSmall pr1).players.get?
      ((e.dealer_id + 1) % e.players.length + 1) =
      if p1.stack < e.small_blind then some (allInZero pr1) else some pr1 := by
    have h1 := postSmall_players_get?_self (deckReset e4) pr1
    rw [hdd] at h1
    simp only [deckReset_players, deckReset_small_blind, hsb, hq1] at h1
    rw [h1, hs1]
    split <;> rfl
  -- and after the big-blind block at both indices
  have hne21 : ((deckReset e4).postSmall pr1).dealer_id + 2 ≠
      (e.dealer_id + 1) % e.players.length + 1 := by
    rw [postSmall_dealer_id, hdd]; omega
  have hZ1 : (((deckReset e4).postSmall pr1).postBig pr2).players.get?
      ((e.dealer_id + 1) % e.players.length + 1) =
      if p1.stack < e.small_blind then some (allInZero pr1) else some pr1 := by
    rw [postBig_players_get?_ne _ _ hne21, hY1]
  have hZ2 : (((deckReset e4).postSmall pr1).postBig pr2).players.get?
      ((e.dealer_id + 1) % e.players.length + 2) =
      if p2.stack < e.big_blind then some (allInZero pr2) else some pr2 := by
    have h1 := postBig_players_get?_self ((deckReset e4).postSmall pr1) pr2
    rw [postSmall_dealer_id, hdd] at h1
    simp only [postSmall_big_blind, deckReset_big_blind, hbb, hq2Y] at h1
    rw [h1, hs2]
    split <;> rfl
  refine ⟨?_, ?_, ?_⟩
  · rw [activateAll_stake, postBig_stake, postSmall_stake]
    simp [hs1, hs2, hsb, hbb]
  · refine ⟨if p1.stack < e.small_blind then activeTrue (allInZero pr1) else activeTrue pr1,
      ?_, ?_, ?_⟩
    · rw [activateAll_players_get?, hZ1]
      split <;> rfl
    · split <;> rename_i hc
      · rfl
      · rw [← hs1]; rfl
    · split <;> rename_i hc
      · rfl
      · rw [← ha1]; rfl
  · refine ⟨if p2.stack < e.big_blind then activeTrue (allInZero pr2) else activeTrue pr2,
      ?_, ?_, ?_⟩
    · rw [activateAll_players_get?, hZ2]
      split <;> rfl
    · split <;> rename_i hc
      · rfl
      · rw [← hs2]; rfl
    · split <;> rename_i hc
      · rfl
      · rw [← ha2]; rfl

theorem postSmall_players_map {α : Type} (f : Player → α)
    (hf : ∀ q, f (allInZero q) = f q) (e : TexasHoldemEnv) (p : Player) :
    (e.postSmall p).players.map f = e.players.map f := by
  rw [postSmall]
  split
  · exact modifyIdx_map f _ hf _ _
  · rfl

theorem postBig_players_map {α : Type} (f : Player → α)
    (hf : ∀ q, f (allInZero q) = f q) (e : TexasHoldemEnv) (p : Player) :
    (e.postBig p).players.map f = e.players.map f := by
  rw [postBig]
  split
  · exact modifyIdx_map f _ hf _ _
  · rfl

theorem activateAll_players_map {α : Type} (f : Player → α)
    (hf : ∀ q, f (activeTrue q) = f q) (e : TexasHoldemEnv) :
    e.activateAll.players.map f = e.players.map f := by
  show (e.players.map activeTrue).map f = e.players.map f
  rw [List.map_map]
  exact List.map_congr_left (fun a _ => hf a)

theorem reset_cards {e e' : TexasHoldemEnv} {t : Table}
    (h : e.reset = Except.ok (e', t)) :
    ∀ i p, e.players.get? i = some p →
      ∃ q, e'.players.get? i = some q ∧
        q.cards = (e.deck.drop (2 * i)).take 2 ∧ q.cards.length = 2 := by
  obtain ⟨e4, pr1, pr2, hN, hdeal, hq1, hq2, rfl, rfl⟩ := reset_ok_elim h
  intro i p hp
  have hp' : (afterRotate e).players.get? i = some (clearCards p) := by
    rw [afterRotate_players, List.get?_map, hp]
    rfl
  obtain ⟨q, hq, hcards⟩ := deal_new_cards_cards hdeal i _ hp'
  rw [afterRotate_deck] at hcards
  have hmc : (((deckReset e4).postSmall pr1).postBig pr2).activateAll.players.map Player.cards
      = e4.players.map Player.cards := by
    rw [activateAll_players_map Player.cards (fun q => rfl),
        postBig_players_map Player.cards (fun q => rfl),
        postSmall_players_map Player.cards (fun q => rfl), deckReset_players]
  have hi4 : i < e4.players.length := get?_some_lt hq
  have hlen2 : i < (((deckReset e4).postSmall pr1).postBig pr2).activateAll.players.length := by
    simpa using hi4
  obtain ⟨q', hq'⟩ := get?_isSome_of_lt hlen2
  have hqc : q'.cards = q.cards := by
    have h1 := map_field_get? Player.cards hmc i
    rw [hq, hq'] at h1
    simpa using h1
  have hslice : ((e.deck.drop (2 * i)).take 2).length = 2 := by
    have hd2 := deal_new_cards_deck_le hdeal
    rw [afterRotate_players_length, afterRotate_deck] at hd2
    have hi : i < e.players.length := get?_some_lt hp
    rw [List.length_take, List.length_drop]
    omega
  refine ⟨q', hq', hqc.trans hcards, ?_⟩
  rw [hqc.trans hcards]
  exact hslice

/-! ## The out-of-range blind posting failure -/

theorem reset_edge_fail {e : TexasHoldemEnv}
    (hN : e.players.length ≠ 0) (ha : e.active_players ≠ [])
    (hd : 2 * e.players.length ≤ e.deck.length)
    (hrot : (e.dealer_id + 1) % e.players.length = e.players.length - 1) :
    e.reset = Except.error PyErr.indexError := by
  cases hres : e.reset with
  | error er =>
    rw [reset_error_classify hN ha hd hres]
  | ok v =>
    obtain ⟨e', t⟩ := v
    obtain ⟨e4, pr1, pr2, _, hdeal, hq1, hq2, _, _⟩ := reset_ok_elim hres
    obtain ⟨hd1, _, _, _, _, _, _, hlen⟩ := deal_new_cards_fields hdeal
    simp only [afterRotate_dealer_id, afterRotate_players_length] at hd1 hlen
    rw [deckReset_players, deckReset_dealer_id] at hq1
    have hlt : e4.dealer_id + 1 < e4.players.length := get?_some_lt hq1
    rw [hd1, hrot, hlen] at hlt
    omega

theorem resetRun_succ_error {e : TexasHoldemEnv} {K : Nat} {er : PyErr}
    (h : e.reset = Except.error er) : e.resetRun (K + 1) = Except.error er := by
  simp only [resetRun, h]

theorem resetRun_succ_ok {e e' : TexasHoldemEnv} {t : Table} {K : Nat}
    (h : e.reset = Except.ok (e', t)) : e.resetRun (K + 1) = e'.resetRun K := by
  simp only [resetRun, h]

theorem resetRun_edge : ∀ (k : Nat) (e : TexasHoldemEnv),
    e.players.length ≠ 0 → e.active_players ≠ [] →
    2 * e.players.length ≤ e.deck.length → 2 * e.players.length ≤ 52 →
    (e.dealer_id + 1) % e.players.length + k = e.players.length - 1 →
    ∀ K, k < K → e.resetRun K = Except.error PyErr.indexError := by
  intro k
  induction k with
  | zero =>
    intro e hN ha hd h52 hrot K hK
    cases K with
    | zero => omega
    | succ K =>
      exact resetRun_succ_error (reset_edge_fail hN ha hd (by omega))
  | succ k ih =>
    intro e hN ha hd h52 hrot K hK
    cases K with
    | zero => omega
    | succ K =>
      cases hres : e.reset with
      | error er =>
        rw [resetRun_succ_error hres, reset_error_classify hN ha hd hres]
      | ok v =>
        obtain ⟨e', t⟩ := v
        rw [resetRun_succ_ok hres]
        obtain ⟨hgs, hdk, htb, ht, hdid, hlen, hap, hsb, hbb⟩ := reset_state hres
        have hN' : e'.players.length ≠ 0 := by rw [hlen]; exact hN
        have ha' : e'.active_players ≠ [] := by rw [hap]; exact ha
        have hd' : 2 * e'.players.length ≤ e'.deck.length := by
          rw [hlen, hdk]
          simpa [freshDeck] using h52
        have h52' : 2 * e'.players.length ≤ 52 := by rw [hlen]; exact h52
        have hrot' : (e'.dealer_id + 1) % e'.players.length + k
            = e'.players.length - 1 := by
          rw [hdid, hlen]
          have hlt : (e.dealer_id + 1) % e.players.length + 1 < e.players.length := by
            omega
          rw [Nat.mod_eq_of_lt hlt]
          omega
        exact ih e' hN' ha' hd' h52' hrot' K (by omega)

/-! ## One-step equations for `step` -/

theorem step_preflop {e : TexasHoldemEnv} (a : Int)
    (hgs : e.game_state = GameState.PREFLOP) {cs d2 : List Card}
    (hdr : drawRandom e.deck 3 = Except.ok (cs, d2)) :
    e.step a = Except.ok
      ({ e with table := { e.table with flop := some cs },
                deck := d2, game_state := GameState.FLOP },
       ({ e with table := { e.table with flop := some cs },
                 deck := d2, game_state := GameState.FLOP }).table, 0, false) := by
  simp only [step, hgs, hdr]

theorem step_flop {e : TexasHoldemEnv} (a : Int)
    (hgs : e.game_state = GameState.FLOP) {c : Card} {d2 : List Card}
    (hdr : drawOne e.deck = Except.ok (c, d2)) :
    e.step a = Except.ok
      ({ e with table := { e.table with turn := some c },
                deck := d2, game_state := GameState.TURN },
       ({ e with table := { e.table with turn := some c },
                 deck := d2, game_state := GameState.TURN }).table, 0, false) := by
  simp only [step, hgs, hdr]

theorem step_turn {e : TexasHoldemEnv} (a : Int)
    (hgs : e.game_state = GameState.TURN) {c : Card} {d2 : List Card}
    (hdr : drawOne e.deck = Except.ok (c, d2)) :
    e.step a = Except.ok
      ({ e with table := { e.table with river := some c },
                deck := d2, game_state := GameState.SHOWDOWN },
       ({ e with table := { e.table with river := some c },
                 deck := d2, game_state := GameState.SHOWDOWN }).table, 0, false) := by
  simp only [step, hgs, hdr]

theorem step_showdown {e : TexasHoldemEnv} (a : Int)
    (hgs : e.game_state = GameState.SHOWDOWN) :
    e.step a = Except.ok (e, e.table, 0, false) := by
  simp only [step, hgs]

end TexasHoldemEnv

namespace TexasHoldemEnv

/-- After a successful `reset`, the three `step` calls behave
deterministically: the deck is the fresh 52-card deck, so the flop is
its first three cards, the turn its fourth and the river its fifth. -/
theorem reset_steps {e e' : TexasHoldemEnv} {t : Table}
    (h : e.reset = Except.ok (e', t)) (a1 a2 a3 : Int) :
    e'.step a1 = Except.ok (stepOne e', (stepOne e').table, 0, false) ∧
    (stepOne e').step a2 = Except.ok (stepTwo e', (stepTwo e').table, 0, false) ∧
    (stepTwo e').step a3 = Except.ok (stepThree e', (stepThree e').table, 0, false) := by
  obtain ⟨hgs, hdk, htb, ht, _⟩ := reset_state h
  have hdr1 : drawRandom e'.deck 3 = Except.ok ([0, 1, 2], freshDeck.drop 3) := by
    rw [hdk]; decide
  have hdr2 : drawOne (freshDeck.drop 3) = Except.ok (3, freshDeck.drop 4) := by decide
  have hdr3 : drawOne (freshDeck.drop 4) = Except.ok (4, freshDeck.drop 5) := by decide
  refine ⟨?_, ?_, ?_⟩
  · rw [step_preflop a1 hgs hdr1, htb]
    exact rfl
  · rw [step_flop a2 rfl hdr2]
    exact rfl
  · rw [step_turn a3 rfl hdr3]
    exact rfl

end TexasHoldemEnv

/-- `wEnv` with a recognisably different left-over deck from the
previous hand (the 52 cards in reverse order). -/
def wEnvB : TexasHoldemEnv := { wEnv with deck := (List.range 52).reverse }

/-! ## The claims -/

open TexasHoldemEnv

/-- C1: the spec claims that after `reset` exactly one active seat holds
each of the dealer, small-blind and big-blind roles, on three distinct
consecutive active seats.  The code violates this: `reset` never
transfers the `is_dealer` flag to the rotated dealer, and both blind
scans are the identical call `__get_next_active_player_id(dealer_id+1)`
whose stopping predicate looks for the *dealer flag*, so the small-blind
and big-blind flags land on one and the same seat (the stale dealer
seat).  Evaluated on the constructor itself:
`TexasHoldemEnv(number_of_players=5, initial_stack=1000, small_blind=10)`
with initial dealer seat 4 (the only initial dealer for which the
constructor completes at all): after its `reset`, seat 4 carries the
dealer, small-blind and big-blind flags simultaneously while the
rotated dealer (`dealer_id = 0`) carries none, and every seat is
active. -/
theorem claim1_blind_roles_collide :
    ((TexasHoldemEnv.init 5 1000 10 4).toOption.map (fun x =>
       (x.1.players.map Player.is_small_blind,
        x.1.players.map Player.is_big_blind,
        x.1.players.map Player.is_dealer,
        x.1.dealer_id))) =
      some ([false, false, false, false, true],
            [false, false, false, false, true],
            [false, false, false, false, true], 0) ∧
    ((TexasHoldemEnv.init 5 1000 10 4).toOption.map (fun x =>
       x.1.players.map Player.is_active)) = some [true, true, true, true, true] := by
  decide

/-- C2: the spec claims the role-rotation scan walks forward circularly
from `from_seat + 1 (mod seat count)`, returns the first seat that is
active and distinct from the previous role holder, and signals
`NoEligibleSeat` after one bounded circuit.  The code's scan instead
looks for the seat whose `is_dealer` flag is set, never consults
`is_active`, never wraps around (`next_player += 1` without a modulus,
so it can run past the end of the seat list and raise `IndexError`),
and has no `NoEligibleSeat` signal.  Concretely, on five all-active
seats: with the dealer flag on seat 0, `__get_next_active_player_id(1)`
raises `IndexError`; with the dealer flag on seat 3,
`__get_next_active_player_id(0)` returns 3 — the dealer seat — even
though seat 1 is the first active seat after seat 0 + 1. -/
theorem claim2_scan_contradicts_spec :
    scanEnvA.get_next_active_player_id 1 = Except.error PyErr.indexError ∧
    scanEnvB.get_next_active_player_id 0 = Except.ok 3 ∧
    scanEnvB.players.map Player.is_active = [true, true, true, true, true] ∧
    scanEnvB.players.map Player.is_dealer = [false, false, false, true, false] := by
  decide

/-- C7 (amended): `advance` does not validate its action argument at
all: the result of `step` is completely independent of the action, for
every action value (the helper `_check_action`, which would raise for
actions outside `{FOLD, CALL, RAISE}` = `{0, 1, 2}`, exists but is
never invoked by `step`). -/
theorem claim7_action_ignored :
    (∀ (e : TexasHoldemEnv) (a a' : Int), e.step a = e.step a') ∧
    (∀ a : Int, check_action a = Except.error PyErr.valueError ↔ ¬ (0 ≤ a ∧ a < 3)) := by
  constructor
  · intro e a a'
    rfl
  · intro a
    rw [check_action]
    by_cases hc : 0 ≤ a ∧ a < 3 <;> simp [hc]

/-- C7 counterexample: the claim says `advance` fails with
`InvalidAction` for every action outside `{FOLD, CALL, RAISE}`; but
`step` with the out-of-range action 99 succeeds (here at a SHOWDOWN
state, returning the state unchanged), because `_check_action` is never
called. -/
theorem claim7_counterexample :
    wEnv.step 99 = Except.ok (wEnv, wEnv.table, 0, false) ∧
    ¬ (0 ≤ (99 : Int) ∧ (99 : Int) < 3) ∧
    check_action 99 = Except.error PyErr.valueError := by
  decide

/-- C10 (amended): `Player.reset` clears the seat's cards and all four
role flags and preserves the stack (and id), but it does *not* preserve
`is_active`: it sets `is_active` to `false`. -/
theorem claim10_player_reset (p : Player) :
    (Player.reset p).stack = p.stack ∧ (Player.reset p).id = p.id ∧
    (Player.reset p).cards = [] ∧ (Player.reset p).is_all_in = false ∧
    (Player.reset p).is_dealer = false ∧ (Player.reset p).is_small_blind = false ∧
    (Player.reset p).is_big_blind = false ∧ (Player.reset p).is_active = false :=
  ⟨rfl, rfl, rfl, rfl, rfl, rfl, rfl, rfl⟩

/-- C10 counterexample: the claim says the per-seat reset leaves
`is_active` unchanged; but resetting a freshly created (active) player
yields an inactive player. -/
theorem claim10_counterexample :
    (Player.init 0 100).is_active = true ∧
    (Player.reset (Player.init 0 100)).is_active = false := by
  decide

theorem if_lt_min (a b : Int) : (if a < b then a else b) = min a b := by
  by_cases hc : a < b
  · rw [if_pos hc, min_eq_left hc.le]
  · rw [if_neg hc, min_eq_right (le_of_not_lt hc)]

/-- C3 (amended): after a successful `reset`,
`stake = min(stack_{d+1}, small_blind) + min(stack_{d+2}, big_blind)`
evaluated on pre-deduction stacks — where `d` is the *post-rotation
dealer index* and the two debited seats are the seats at indices
`d + 1` and `d + 2` (no wrap-around), **not** the seats that carry the
`is_small_blind` / `is_big_blind` flags (those flags land on the stale
dealer seat, see C1); and for each of the two debited seats whose
`is_all_in` flag was clear before the hand, the flag is set after
`reset` iff its posted contribution was capped by its stack. -/
theorem claim3_stake_amended {e e' : TexasHoldemEnv} {t : Table} {p1 p2 : Player}
    (h : e.reset = Except.ok (e', t))
    (hp1 : e.players.get? ((e.dealer_id + 1) % e.players.length + 1) = some p1)
    (hp2 : e.players.get? ((e.dealer_id + 1) % e.players.length + 2) = some p2) :
    e'.stake = some (min p1.stack e.small_blind + min p2.stack e.big_blind) ∧
    (p1.is_all_in = false →
      ∀ q1, e'.players.get? ((e.dealer_id + 1) % e.players.length + 1) = some q1 →
        (q1.is_all_in = true ↔ p1.stack < e.small_blind)) ∧
    (p2.is_all_in = false →
      ∀ q2, e'.players.get? ((e.dealer_id + 1) % e.players.length + 2) = some q2 →
        (q2.is_all_in = true ↔ p2.stack < e.big_blind)) := by
  obtain ⟨hstake, ⟨q1, hq1, hq1s, hq1a⟩, ⟨q2, hq2, hq2s, hq2a⟩⟩ := reset_post h hp1 hp2
  refine ⟨?_, ?_, ?_⟩
  · rw [hstake, if_lt_min, if_lt_min]
  · intro hfl q1' hq1'
    have hq : q1' = q1 := by
      rw [hq1] at hq1'
      exact (Option.some.inj hq1').symm
    subst hq
    rw [hq1a, hfl]
    by_cases hc : p1.stack < e.small_blind <;> simp [hc]
  · intro hfl q2' hq2'
    have hq : q2' = q2 := by
      rw [hq2] at hq2'
      exact (Option.some.inj hq2').symm
    subst hq
    rw [hq2a, hfl]
    by_cases hc : p2.stack < e.big_blind <;> simp [hc]

/-- C3 witness: on `wEnv` (5 seats, previous dealer seat 4, small blind
10, big blind 20, seat 2 holding only 5 chips) `reset` succeeds; the
debited seats are 1 and 2 and the stake is
`min(1000, 10) + min(5, 20) = 15`. -/
theorem claim3_witness :
    ∃ e' t, wEnv.reset = Except.ok (e', t) ∧
      e'.stake = some (min (Player.init 1 1000).stack wEnv.small_blind +
                       min (Player.init 2 5).stack wEnv.big_blind) := by
  cases hres : wEnv.reset with
  | error er =>
    have hok : (wEnv.reset).isOk = true := by decide
    rw [hres] at hok
    exact Bool.noConfusion hok
  | ok v =>
    obtain ⟨e', t⟩ := v
    exact ⟨e', t, rfl,
      (@claim3_stake_amended wEnv e' t (Player.init 1 1000) (Player.init 2 5) hres
        (by decide) (by decide)).1⟩

/-- C3 counterexample: the claim as stated reads the stacks of "the
seats holding the small-blind and big-blind roles".  On `cEnv` (seat 4
has both blind flags after `reset` and a pre-deduction stack of 5,
small blind 10, big blind 20) the claim predicts
`stake = min(5,10) + min(5,20) = 10`, but the code posts from seats 1
and 2 and `stake = 30`; moreover the flagged seat keeps its 5 chips
and is not all-in although `5 < 10`. -/
theorem claim3_counterexample :
    ((cEnv.reset).toOption.map (fun x =>
       (x.1.stake, x.1.players.map Player.is_small_blind,
        x.1.players.map Player.is_big_blind))) =
      some (some 30, [false, false, false, false, true],
            [false, false, false, false, true]) ∧
    cEnv.players.map Player.stack = [1000, 1000, 1000, 1000, 5] ∧
    cEnv.small_blind = 10 ∧ cEnv.big_blind = 20 ∧
    ¬ ((30 : Int) = min 5 cEnv.small_blind + min 5 cEnv.big_blind) := by
  decide

/-- C9 (amended): the branch behaviour of blind posting holds for the
seats the code actually debits — seat `d + 1` for the small blind and
seat `d + 2` for the big blind, `d` the post-rotation dealer index —
not for the seats flagged `is_small_blind`/`is_big_blind`: if the
debited seat's stack is strictly below the blind, the whole stack is
posted, `is_all_in` is set and the stack becomes 0; otherwise the full
nominal blind is posted and stack and `is_all_in` are left unchanged. -/
theorem claim9_blind_branches {e e' : TexasHoldemEnv} {t : Table} {p1 p2 : Player}
    (h : e.reset = Except.ok (e', t))
    (hp1 : e.players.get? ((e.dealer_id + 1) % e.players.length + 1) = some p1)
    (hp2 : e.players.get? ((e.dealer_id + 1) % e.players.length + 2) = some p2) :
    e'.stake = some ((if p1.stack < e.small_blind then p1.stack else e.small_blind) +
                     (if p2.stack < e.big_blind then p2.stack else e.big_blind)) ∧
    (p1.stack < e.small_blind →
      ∃ q1, e'.players.get? ((e.dealer_id + 1) % e.players.length + 1) = some q1 ∧
        q1.stack = 0 ∧ q1.is_all_in = true) ∧
    (¬ p1.stack < e.small_blind →
      ∃ q1, e'.players.get? ((e.dealer_id + 1) % e.players.length + 1) = some q1 ∧
        q1.stack = p1.stack ∧ q1.is_all_in = p1.is_all_in) ∧
    (p2.stack < e.big_blind →
      ∃ q2, e'.players.get? ((e.dealer_id + 1) % e.players.length + 2) = some q2 ∧
        q2.stack = 0 ∧ q2.is_all_in = true) ∧
    (¬ p2.stack < e.big_blind →
      ∃ q2, e'.players.get? ((e.dealer_id + 1) % e.players.length + 2) = some q2 ∧
        q2.stack = p2.stack ∧ q2.is_all_in = p2.is_all_in) := by
  obtain ⟨hstake, ⟨q1, hq1, hq1s, hq1a⟩, ⟨q2, hq2, hq2s, hq2a⟩⟩ := reset_post h hp1 hp2
  refine ⟨hstake, ?_, ?_, ?_, ?_⟩
  · intro hc
    exact ⟨q1, hq1, by rw [hq1s, if_pos hc], by rw [hq1a, if_pos hc]⟩
  · intro hc
    exact ⟨q1, hq1, by rw [hq1s, if_neg hc], by rw [hq1a, if_neg hc]⟩
  · intro hc
    exact ⟨q2, hq2, by rw [hq2s, if_pos hc], by rw [hq2a, if_pos hc]⟩
  · intro hc
    exact ⟨q2, hq2, by rw [hq2s, if_neg hc], by rw [hq2a, if_neg hc]⟩

/-- C9 witness: on `wEnv`, the small-blind debit hits seat 1 (stack
1000 ≥ 10: no deduction, not all-in) and the big-blind debit hits seat
2 (stack 5 < 20: all-in, stack zeroed), exercising both branches. -/
theorem claim9_witness :
    ∃ e' t, wEnv.reset = Except.ok (e', t) ∧
      (∃ q1, e'.players.get? 1 = some q1 ∧ q1.stack = 1000 ∧ q1.is_all_in = false) ∧
      (∃ q2, e'.players.get? 2 = some q2 ∧ q2.stack = 0 ∧ q2.is_all_in = true) := by
  cases hres : wEnv.reset with
  | error er =>
    have hok : (wEnv.reset).isOk = true := by decide
    rw [hres] at hok
    exact Bool.noConfusion hok
  | ok v =>
    obtain ⟨e', t⟩ := v
    have H := @claim9_blind_branches wEnv e' t (Player.init 1 1000) (Player.init 2 5) hres
      (by decide) (by decide)
    exact ⟨e', t, rfl, H.2.2.1 (by decide), H.2.2.2.1 (by decide)⟩

/-- C9 counterexample: the claim's example says a seat with stack 5
assigned the small blind (blind = 10) posts 5, is marked all-in and
ends with stack 0.  On `cEnv` the seat carrying the `is_small_blind`
flag after `reset` is seat 4 with stack 5, yet afterwards it still has
its 5 chips, is not all-in, and the stake contains the full nominal
10 + 20 = 30 (the debit hit seats 1 and 2 instead). -/
theorem claim9_counterexample :
    ((cEnv.reset).toOption.map (fun x =>
       (x.1.players.map Player.is_small_blind,
        x.1.players.map Player.stack,
        x.1.players.map Player.is_all_in,
        x.1.stake))) =
      some ([false, false, false, false, true],
            [1000, 1000, 1000, 1000, 5],
            [false, false, false, false, false],
            some 30) ∧
    cEnv.small_blind = 10 := by
  decide

/-- C4: `reset` is not total over reachable dealer positions.  Blind
posting reads `players[dealer_id + 1]` and `players[dealer_id + 2]`
without wrap-around, so on any table of `N ≥ 1` seats (with at least
one entry in the stale `active_players` list and a deck able to cover
the hole-card deal) the rotated dealer landing on seat `N - 1` makes
`reset` raise `IndexError` instead of wrapping to seat 0; each
successful `reset` advances the dealer index by exactly one modulo `N`,
so a run of `N` consecutive `reset` calls always hits the failure. -/
theorem claim4_reset_not_total (e : TexasHoldemEnv)
    (hN : e.players.length ≠ 0) (ha : e.active_players ≠ [])
    (hd : 2 * e.players.length ≤ e.deck.length)
    (h52 : 2 * e.players.length ≤ 52) :
    ((e.dealer_id + 1) % e.players.length = e.players.length - 1 →
      e.reset = Except.error PyErr.indexError) ∧
    (∀ e' t, e.reset = Except.ok (e', t) →
      e'.dealer_id = (e.dealer_id + 1) % e.players.length) ∧
    e.resetRun e.players.length = Except.error PyErr.indexError := by
  refine ⟨fun hrot => TexasHoldemEnv.reset_edge_fail hN ha hd hrot,
    fun e' t h => (TexasHoldemEnv.reset_state h).2.2.2.2.1, ?_⟩
  have hlt : (e.dealer_id + 1) % e.players.length < e.players.length :=
    Nat.mod_lt _ (by omega)
  exact TexasHoldemEnv.resetRun_edge
    (e.players.length - 1 - (e.dealer_id + 1) % e.players.length) e hN ha hd h52
    (by omega) e.players.length (by omega)

/-- C4 witness: `c4Env` has 5 seats and dealer index 3, so the next
`reset` rotates the dealer to seat 4 = N - 1 and fails with
`IndexError`, and so does the 5-call run. -/
theorem claim4_witness :
    (c4Env.players.length ≠ 0 ∧ c4Env.active_players ≠ [] ∧
     2 * c4Env.players.length ≤ c4Env.deck.length ∧
     2 * c4Env.players.length ≤ 52 ∧
     (c4Env.dealer_id + 1) % c4Env.players.length = c4Env.players.length - 1) ∧
    c4Env.reset = Except.error PyErr.indexError ∧
    c4Env.resetRun c4Env.players.length = Except.error PyErr.indexError := by
  have H := claim4_reset_not_total c4Env (by decide) (by decide) (by decide) (by decide)
  exact ⟨⟨by decide, by decide, by decide, by decide, by decide⟩,
    H.1 (by decide), H.2.2⟩

/-- C5: from any successful `reset`, the phase sequence under repeated
`advance` calls is exactly PREFLOP → FLOP (flop slot gains 3 cards) →
TURN (turn slot gains 1 card) → SHOWDOWN (river slot gains 1 card, with
no separate RIVER tick), and a fourth call at SHOWDOWN is a no-op that
returns the table state unchanged. -/
theorem claim5_phase_sequence {e e' : TexasHoldemEnv} {t : Table}
    (h : e.reset = Except.ok (e', t)) (a1 a2 a3 a4 : Int) :
    ∃ e1 e2 e3 : TexasHoldemEnv,
      e'.game_state = GameState.PREFLOP ∧ e'.table.flop = none ∧
      e'.table.turn = none ∧ e'.table.river = none ∧
      e'.step a1 = Except.ok (e1, e1.table, 0, false) ∧
      e1.game_state = GameState.FLOP ∧
      (∃ cs, e1.table.flop = some cs ∧ cs.length = 3) ∧
      e1.table.turn = none ∧ e1.table.river = none ∧
      e1.step a2 = Except.ok (e2, e2.table, 0, false) ∧
      e2.game_state = GameState.TURN ∧
      (∃ c, e2.table.turn = some c) ∧
      e2.table.flop = e1.table.flop ∧ e2.table.river = none ∧
      e2.step a3 = Except.ok (e3, e3.table, 0, false) ∧
      e3.game_state = GameState.SHOWDOWN ∧
      (∃ c, e3.table.river = some c) ∧
      e3.table.flop = e1.table.flop ∧ e3.table.turn = e2.table.turn ∧
      e3.step a4 = Except.ok (e3, e3.table, 0, false) := by
  obtain ⟨h1, h2, h3⟩ := TexasHoldemEnv.reset_steps h a1 a2 a3
  obtain ⟨hgs, hdk, htb, _⟩ := TexasHoldemEnv.reset_state h
  refine ⟨stepOne e', stepTwo e', stepThree e', hgs, ?_, ?_, ?_, h1, rfl,
    ⟨[0, 1, 2], rfl, rfl⟩, rfl, rfl, h2, rfl, ⟨3, rfl⟩, rfl, rfl, h3, rfl,
    ⟨4, rfl⟩, rfl, rfl, TexasHoldemEnv.step_showdown a4 rfl⟩
  · rw [htb]; rfl
  · rw [htb]; rfl
  · rw [htb]; rfl

/-- C5 witness: the whole phase trace run out on the concrete table
`wEnv`, with four different (and even invalid) action values. -/
theorem claim5_witness :
    ∃ e' t, wEnv.reset = Except.ok (e', t) ∧
      (∃ e1 e2 e3 : TexasHoldemEnv,
        e'.game_state = GameState.PREFLOP ∧ e'.table.flop = none ∧
        e'.table.turn = none ∧ e'.table.river = none ∧
        e'.step 0 = Except.ok (e1, e1.table, 0, false) ∧
        e1.game_state = GameState.FLOP ∧
        (∃ cs, e1.table.flop = some cs ∧ cs.length = 3) ∧
        e1.table.turn = none ∧ e1.table.river = none ∧
        e1.step 1 = Except.ok (e2, e2.table, 0, false) ∧
        e2.game_state = GameState.TURN ∧
        (∃ c, e2.table.turn = some c) ∧
        e2.table.flop = e1.table.flop ∧ e2.table.river = none ∧
        e2.step 2 = Except.ok (e3, e3.table, 0, false) ∧
        e3.game_state = GameState.SHOWDOWN ∧
        (∃ c, e3.table.river = some c) ∧
        e3.table.flop = e1.table.flop ∧ e3.table.turn = e2.table.turn ∧
        e3.step 99 = Except.ok (e3, e3.table, 0, false)) := by
  cases hres : wEnv.reset with
  | error er =>
    have hok : (wEnv.reset).isOk = true := by decide
    rw [hres] at hok
    exact Bool.noConfusion hok
  | ok v =>
    obtain ⟨e', t⟩ := v
    exact ⟨e', t, rfl, claim5_phase_sequence hres 0 1 2 99⟩

/-- C6 (amended): within one hand the three community slots are
disjoint and never reused — the flop slot is written once at
PREFLOP→FLOP and unchanged afterwards, likewise turn and river — and
the total of community cards is exactly 3 + 1 + 1 = 5, pairwise
distinct (they are 5 distinct cards of the freshly reset 52-card
deck).  The original claim's further assertion that they are also
distinct from the hole cards dealt this hand is *false* (see the
counterexample): hole cards are dealt *before* `deck.reset()`, so the
restored full deck contains the very cards already in the players'
hands. -/
theorem claim6_community_cards {e e' : TexasHoldemEnv} {t : Table}
    (h : e.reset = Except.ok (e', t)) (a1 a2 a3 : Int) :
    ∃ (e1 e2 e3 : TexasHoldemEnv) (f : List Card) (tc rc : Card),
      e'.step a1 = Except.ok (e1, e1.table, 0, false) ∧
      e1.step a2 = Except.ok (e2, e2.table, 0, false) ∧
      e2.step a3 = Except.ok (e3, e3.table, 0, false) ∧
      e3.table.flop = some f ∧ e3.table.turn = some tc ∧ e3.table.river = some rc ∧
      e3.table.flop = e1.table.flop ∧ e3.table.turn = e2.table.turn ∧
      (f ++ [tc, rc]).length = 5 ∧
      (f ++ [tc, rc]).Pairwise (fun a b => a ≠ b) := by
  obtain ⟨h1, h2, h3⟩ := TexasHoldemEnv.reset_steps h a1 a2 a3
  exact ⟨stepOne e', stepTwo e', stepThree e', [0, 1, 2], 3, 4, h1, h2, h3,
    rfl, rfl, rfl, rfl, rfl, rfl, by decide⟩

/-- C6 witness: the five distinct community cards on the concrete
table `wEnv`. -/
theorem claim6_witness :
    ∃ e' t, wEnv.reset = Except.ok (e', t) ∧
      (∃ (e1 e2 e3 : TexasHoldemEnv) (f : List Card) (tc rc : Card),
        e'.step 0 = Except.ok (e1, e1.table, 0, false) ∧
        e1.step 0 = Except.ok (e2, e2.table, 0, false) ∧
        e2.step 0 = Except.ok (e3, e3.table, 0, false) ∧
        e3.table.flop = some f ∧ e3.table.turn = some tc ∧ e3.table.river = some rc ∧
        e3.table.flop = e1.table.flop ∧ e3.table.turn = e2.table.turn ∧
        (f ++ [tc, rc]).length = 5 ∧
        (f ++ [tc, rc]).Pairwise (fun a b => a ≠ b)) := by
  cases hres : wEnv.reset with
  | error er =>
    have hok : (wEnv.reset).isOk = true := by decide
    rw [hres] at hok
    exact Bool.noConfusion hok
  | ok v =>
    obtain ⟨e', t⟩ := v
    exact ⟨e', t, rfl, claim6_community_cards hres 0 0 0⟩

/-- Seat 0's hole cards together with the flop after `reset` followed
by one `step` — the observation used by the C6 counterexample. -/
def holeAndFlop (e : TexasHoldemEnv) : Option (List Card × Option (List Card)) :=
  match e.reset with
  | Except.error _ => none
  | Except.ok (e', _) =>
    match e'.step 0 with
    | Except.error _ => none
    | Except.ok (e1, _, _, _) =>
      match e1.players.get? 0 with
      | none => none
      | some p => some (p.cards, e1.table.flop)

/-- C6 counterexample: on `wEnv`, `reset` deals seat 0 the hole cards
[0, 1] from the left-over deck, then resets the deck to the full
52 cards, and the first `step` deals the flop [0, 1, 2] — so community
card 0 coincides with a hole card dealt to seat 0 in the same hand,
refuting the claim that all five community cards are distinct from
every dealt hole card. -/
theorem claim6_counterexample :
    holeAndFlop wEnv = some ([0, 1], some [0, 1, 2]) ∧
    (0 : Card) ∈ ([0, 1] : List Card) ∧ (0 : Card) ∈ ([0, 1, 2] : List Card) := by
  decide

/-- C8: in `reset`, hole cards are dealt *before* the deck is reset:
every seat's two hole cards are the next two cards of the deck state
carried over from the previous hand (seat `i` receives cards `2i` and
`2i + 1` of the incoming deck, in seat order), and only afterwards is
the deck restored to the full fresh 52-card state in which `reset`
leaves it. -/
theorem claim8_deal_then_reset {e e' : TexasHoldemEnv} {t : Table}
    (h : e.reset = Except.ok (e', t)) :
    e'.deck = freshDeck ∧
    ∀ i p, e.players.get? i = some p →
      ∃ q, e'.players.get? i = some q ∧
        q.cards = (e.deck.drop (2 * i)).take 2 ∧ q.cards.length = 2 :=
  ⟨(TexasHoldemEnv.reset_state h).2.1, TexasHoldemEnv.reset_cards h⟩

/-- C8 witness: `wEnvB` enters `reset` with the 52 cards in reverse
order; seat 0 is dealt [51, 50] — the first two cards of the *old*
deck — while the deck `reset` leaves behind is the fresh one. -/
theorem claim8_witness :
    ∃ e' t, wEnvB.reset = Except.ok (e', t) ∧ e'.deck = freshDeck ∧
      (∃ q, e'.players.get? 0 = some q ∧
        q.cards = (wEnvB.deck.drop 0).take 2 ∧ q.cards.length = 2) ∧
      (wEnvB.deck.drop 0).take 2 = [51, 50] := by
  cases hres : wEnvB.reset with
  | error er =>
    have hok : (wEnvB.reset).isOk = true := by decide
    rw [hres] at hok
    exact Bool.noConfusion hok
  | ok v =>
    obtain ⟨e', t⟩ := v
    have H := claim8_deal_then_reset hres
    exact ⟨e', t, rfl, H.1, H.2 0 (Player.init 0 1000) (by decide), by decide⟩
